import Mathlib

/-!
Verification of the phonetic-transliteration module
`src/frontend/src/utils/phonetics.ts` of PROJECT-J.

The module exposes two pure functions:
* `romajiMoraToThai` : Japanese romaji mora → Thai phonetic string
* `rtgsToKatakana`   : Thai RTGS romanization → Katakana string

Strings are modelled as Lean `String`; the character-level work is done on
`String.data : List Char`.  JavaScript's `String.prototype.toLowerCase` is
modelled on the ASCII range (which covers every key of every table in the
module), and `normalize('NFD')` is modelled as the identity on code points
(every input the module receives is already decomposed; the subsequent
filter removing the combining-mark block U+0300–U+036F is modelled exactly).
-/

namespace Phonetics

/-- ASCII lowercasing, the fragment of JS `toLowerCase` relevant to the
tables (all table keys are ASCII). -/
def jsToLower (c : Char) : Char := c.toLower

/-- The JS regex class `\s` (ECMA-262 WhiteSpace ∪ LineTerminator). -/
def isJsSpace (c : Char) : Bool :=
  c == ' ' || c == '\t' || c == '\n' || c == '\r' ||
  c.toNat == 11 || c.toNat == 12 ||
  c.toNat == 0xa0 || c.toNat == 0x1680 ||
  (0x2000 ≤ c.toNat && c.toNat ≤ 0x200a) ||
  c.toNat == 0x2028 || c.toNat == 0x2029 ||
  c.toNat == 0x202f || c.toNat == 0x205f ||
  c.toNat == 0x3000 || c.toNat == 0xfeff

/-- `MORA_TO_THAI` from phonetics.ts, verbatim, as an association list
(the object literal has pairwise-distinct keys). -/
def MORA_TO_THAI : List (String × String) :=
  [("a", "อา"), ("i", "อิ"), ("u", "อุ"), ("e", "เอ"), ("o", "โอ"),
   ("n", "น"), ("nn", "น"),
   ("ka", "คา"), ("ki", "คิ"), ("ku", "คุ"), ("ke", "เค"), ("ko", "โค"),
   ("sa", "ซา"), ("shi", "ชิ"), ("si", "ชิ"), ("su", "ซุ"), ("se", "เซ"), ("so", "โซ"),
   ("ta", "ทา"), ("chi", "ชิ"), ("ti", "ทิ"), ("tsu", "สึ"), ("tu", "ทุ"), ("te", "เท"), ("to", "โท"),
   ("na", "นา"), ("ni", "นิ"), ("nu", "นุ"), ("ne", "เน"), ("no", "โน"),
   ("ha", "ฮา"), ("hi", "ฮิ"), ("fu", "ฝุ"), ("hu", "ฮุ"), ("he", "เฮ"), ("ho", "โฮ"),
   ("ma", "มา"), ("mi", "มิ"), ("mu", "มุ"), ("me", "เม"), ("mo", "โม"),
   ("ya", "ยา"), ("yu", "ยุ"), ("yo", "โย"),
   ("ra", "รา"), ("ri", "ริ"), ("ru", "รุ"), ("re", "เร"), ("ro", "โร"),
   ("wa", "วา"), ("wi", "วิ"), ("we", "เว"), ("wo", "โวะ"),
   ("ga", "กา"), ("gi", "กิ"), ("gu", "กุ"), ("ge", "เก"), ("go", "โก"),
   ("za", "ซา"), ("ji", "จิ"), ("zi", "จิ"), ("zu", "ซุ"), ("ze", "เซ"), ("zo", "โซ"),
   ("da", "ดา"), ("di", "ดิ"), ("du", "ดุ"), ("de", "เด"), ("do", "โด"),
   ("ba", "บา"), ("bi", "บิ"), ("bu", "บุ"), ("be", "เบ"), ("bo", "โบ"),
   ("pa", "ปา"), ("pi", "ปิ"), ("pu", "ปุ"), ("pe", "เป"), ("po", "โป"),
   ("kya", "คยา"), ("kyu", "คยุ"), ("kyo", "คโย"),
   ("sha", "ชา"), ("shu", "ชุ"), ("sho", "โช"),
   ("cha", "ชา"), ("chu", "ชุ"), ("cho", "โช"),
   ("nya", "นยา"), ("nyu", "นยุ"), ("nyo", "นโย"),
   ("hya", "ฮยา"), ("hyu", "ฮยุ"), ("hyo", "ฮโย"),
   ("mya", "มยา"), ("myu", "มยุ"), ("myo", "มโย"),
   ("rya", "รยา"), ("ryu", "รยุ"), ("ryo", "รโย"),
   ("gya", "กยา"), ("gyu", "กยุ"), ("gyo", "กโย"),
   ("ja", "จา"), ("ju", "จุ"), ("jo", "โจ"),
   ("bya", "บยา"), ("byu", "บยุ"), ("byo", "บโย"),
   ("pya", "ปยา"), ("pyu", "ปยุ"), ("pyo", "ปโย")]

/-- The *own-key* component of the JS property read `MORA_TO_THAI[key]`
(keys of the literal are pairwise distinct, so first match equals JS
own-property lookup).  A JS property read also reaches the prototype
chain; `jsIndexMora` below adds that part. -/
def lookupMora (k : String) : Option String :=
  (MORA_TO_THAI.find? (fun p => p.1 == k)).map (fun p => p.2)

/-- `roman.toLowerCase().replace(/[-\s]/g, '')`. -/
def normalizeMora (s : String) : String :=
  String.mk ((s.data.map jsToLower).filter (fun c => !(c == '-' || isJsSpace c)))

/-- `romajiMoraToThai` as its TypeScript signature declares it
(`string → string`): own-key lookup of the normalized key with the
`?? roman` fallback.  This view coincides with the runtime behaviour
whenever the normalized key does not name a member inherited from
`Object.prototype`; `romajiMoraToThaiJs` below is faithful everywhere. -/
def romajiMoraToThai (roman : String) : String :=
  (lookupMora (normalizeMora roman)).getD roman

/-- A JS value readable from `MORA_TO_THAI[key]`: either an own data
property (one of the Thai strings of the literal) or a member inherited
from `Object.prototype` (a function or object, identified here by its
property name — never a string of the table). -/
inductive JsLookup where
  | str : String → JsLookup
  | inherited : String → JsLookup
  deriving DecidableEq

/-- The own property names of `Object.prototype` (ECMA-262).  A property
read on an object literal falls through to these when no own key matches,
and each holds a non-nullish value (a function, or the prototype object
for `__proto__`), so the `??` fallback does not fire on them. -/
def OBJECT_PROTOTYPE_MEMBERS : List String :=
  ["constructor", "hasOwnProperty", "isPrototypeOf", "propertyIsEnumerable",
   "toLocaleString", "toString", "valueOf", "__defineGetter__",
   "__defineSetter__", "__lookupGetter__", "__lookupSetter__", "__proto__"]

/-- The full JS property read `MORA_TO_THAI[key]`: own keys first, then
the prototype chain; `none` models `undefined`. -/
def jsIndexMora (k : String) : Option JsLookup :=
  match lookupMora k with
  | some v => some (JsLookup.str v)
  | none =>
      if k ∈ OBJECT_PROTOTYPE_MEMBERS then some (JsLookup.inherited k)
      else none

/-- Runtime-faithful `romajiMoraToThai`: when the normalized key names an
inherited `Object.prototype` member (after lowercasing, exactly
`"constructor"` and `"__proto__"` are reachable), the program returns
that inherited member — the declared `string` return type
notwithstanding — and only a genuinely absent key reaches `?? roman`. -/
def romajiMoraToThaiJs (roman : String) : JsLookup :=
  (jsIndexMora (normalizeMora roman)).getD (JsLookup.str roman)

end Phonetics

namespace Phonetics

/-- `a.startsWith(b)` on character lists. -/
def isPre : List Char → List Char → Bool
  | [], _ => true
  | _ :: _, [] => false
  | a :: as, b :: bs => a == b && isPre as bs

/-- `a.endsWith(b)` on character lists. -/
def isSuf (a b : List Char) : Bool := isPre a.reverse b.reverse

/-- `stripDiacritics` from phonetics.ts: NFD (identity on already-decomposed
code points) followed by removal of U+0300–U+036F combining marks. -/
def stripDiacritics (l : List Char) : List Char :=
  l.filter (fun c => decide (c.toNat < 0x300 ∨ 0x36f < c.toNat))

/-- `ONSET_LIST` from phonetics.ts, verbatim order. -/
def ONSET_LIST : List String :=
  ["ng", "kh", "ph", "th", "ch", "tr", "pr", "pl",
   "k", "s", "t", "n", "p", "f", "m", "y", "r", "l", "w", "h", "d", "b"]

/-- One row of `ONSET_KATA`: Katakana bases for vowel classes a i u e o. -/
structure KataRow where
  va : String
  vi : String
  vu : String
  ve : String
  vo : String
  deriving DecidableEq

/-- `row[vIdx]` for `vIdx` in 0..4 (the only indices stored in `VOWEL_MAP`). -/
def KataRow.sel (r : KataRow) (i : Fin 5) : String :=
  [r.va, r.vi, r.vu, r.ve, r.vo].get ⟨i.val, i.isLt⟩

/-- `ONSET_KATA` from phonetics.ts, verbatim. -/
def ONSET_KATA : List (String × KataRow) :=
  [("kh", ⟨"カ", "キ", "ク", "ケ", "コ"⟩),
   ("ph", ⟨"パ", "ピ", "プ", "ペ", "ポ"⟩),
   ("th", ⟨"タ", "ティ", "トゥ", "テ", "ト"⟩),
   ("ch", ⟨"チャ", "チ", "チュ", "チェ", "チョ"⟩),
   ("tr", ⟨"チャ", "チ", "チュ", "チェ", "チョ"⟩),
   ("pr", ⟨"プラ", "プリ", "プル", "プレ", "プロ"⟩),
   ("pl", ⟨"プラ", "プリ", "プル", "プレ", "プロ"⟩),
   ("ng", ⟨"ンガ", "ンギ", "ング", "ンゲ", "ンゴ"⟩),
   ("k", ⟨"カ", "キ", "ク", "ケ", "コ"⟩),
   ("s", ⟨"サ", "シ", "ス", "セ", "ソ"⟩),
   ("t", ⟨"タ", "ティ", "トゥ", "テ", "ト"⟩),
   ("n", ⟨"ナ", "ニ", "ヌ", "ネ", "ノ"⟩),
   ("p", ⟨"パ", "ピ", "プ", "ペ", "ポ"⟩),
   ("f", ⟨"ファ", "フィ", "フ", "フェ", "フォ"⟩),
   ("m", ⟨"マ", "ミ", "ム", "メ", "モ"⟩),
   ("y", ⟨"ヤ", "イ", "ユ", "イェ", "ヨ"⟩),
   ("r", ⟨"ラ", "リ", "ル", "レ", "ロ"⟩),
   ("l", ⟨"ラ", "リ", "ル", "レ", "ロ"⟩),
   ("w", ⟨"ワ", "ウィ", "ウ", "ウェ", "ウォ"⟩),
   ("h", ⟨"ハ", "ヒ", "フ", "ヘ", "ホ"⟩),
   ("d", ⟨"ダ", "ディ", "ドゥ", "デ", "ド"⟩),
   ("b", ⟨"バ", "ビ", "ブ", "ベ", "ボ"⟩),
   ("", ⟨"ア", "イ", "ウ", "エ", "オ"⟩)]

/-- `ONSET_KATA[onset] ?? ONSET_KATA['']`. -/
def onsetKataLookup (o : String) : KataRow :=
  match ONSET_KATA.find? (fun p => p.1 == o) with
  | some p => p.2
  | none   => ⟨"ア", "イ", "ウ", "エ", "オ"⟩

/-- `VOWEL_MAP` from phonetics.ts, verbatim order: pattern, vowel-class
index (0=a 1=i 2=u 3=e 4=o), Katakana suffix. -/
def VOWEL_MAP : List (String × Fin 5 × String) :=
  [("uea", 2, "ア"),
   ("uaa", 2, "アー"),
   ("iaa", 1, "アー"),
   ("ia", 1, "ア"),
   ("ua", 2, "ア"),
   ("aaw", 4, "ー"),
   ("aae", 3, "ー"),
   ("ooe", 2, "ー"),
   ("aa", 0, "ー"),
   ("ii", 1, "ー"),
   ("uu", 2, "ー"),
   ("ee", 3, "ー"),
   ("oo", 4, "ー"),
   ("aw", 4, ""),
   ("ae", 3, ""),
   ("oe", 2, ""),
   ("a", 0, ""),
   ("i", 1, ""),
   ("u", 2, ""),
   ("e", 3, ""),
   ("o", 4, "")]

/-- `CODA_KATA` from phonetics.ts. -/
def CODA_KATA : List (String × String) :=
  [("ng", "ング"), ("k", "ク"), ("t", "ト"), ("p", "プ"),
   ("n", "ン"), ("m", "ム"), ("w", "ウ"), ("y", "イ")]

/-- The `codaKeys` array inside `convertRtgsPart`. -/
def CODA_KEYS : List String := ["ng", "k", "t", "p", "n", "m", "w", "y"]

/-- `CODA_KATA[coda] ?? ''`. -/
def codaSuffix (c : String) : String :=
  match CODA_KATA.find? (fun p => p.1 == c) with
  | some p => p.2
  | none   => ""

/-- Step 1 loop of `convertRtgsPart`: first entry of the onset list that is
a prefix of the string is consumed (`break`); otherwise onset stays `''`. -/
def findOnsetLoop : List String → List Char → String × List Char
  | [], rest => ("", rest)
  | o :: os, rest =>
      if isPre o.data rest then (o, rest.drop o.data.length)
      else findOnsetLoop os rest

/-- Step 2 loop of `convertRtgsPart`: first coda key that is a suffix of
the string *and* leaves at least one character is consumed from the end. -/
def findCodaLoop : List String → List Char → String × List Char
  | [], rest => ("", rest)
  | c :: cs, rest =>
      if isSuf c.data rest && decide (c.data.length < rest.length) then
        (c, rest.take (rest.length - c.data.length))
      else findCodaLoop cs rest

/-- Step 3 loop of `convertRtgsPart`: first vowel pattern with
`rest === pattern || rest.startsWith(pattern)` wins. -/
def findVowelLoop : List (String × Fin 5 × String) → List Char → Option (Fin 5 × String)
  | [], _ => none
  | (pat, v) :: ps, rest =>
      if rest == pat.data || isPre pat.data rest then some v
      else findVowelLoop ps rest

/-- `convertRtgsPart` from phonetics.ts. -/
def convertRtgsPart (raw : String) : String :=
  let s := (stripDiacritics raw.data).map jsToLower
  let or1 := findOnsetLoop ONSET_LIST s
  let cr2 := findCodaLoop CODA_KEYS or1.2
  let okata := onsetKataLookup or1.1
  let kataSyllable :=
    match findVowelLoop VOWEL_MAP cr2.2 with
    | some (vi, suf) => okata.sel vi ++ suf
    | none => okata.sel 0
  kataSyllable ++ codaSuffix cr2.1

/-- `rtgs.split` on the hyphen character (single-character separator split). -/
def splitHyphens : List Char → List Char → List (List Char)
  | [], acc => [acc.reverse]
  | c :: cs, acc =>
      if c = '-' then acc.reverse :: splitHyphens cs []
      else splitHyphens cs (c :: acc)

/-- `.filter(Boolean)`: empty segments discarded. -/
def rtgsParts (s : String) : List (List Char) :=
  (splitHyphens s.data []).filter (fun p => !p.isEmpty)

/-- `.join('')`. -/
def joinAll : List String → String
  | [] => ""
  | x :: xs => x ++ joinAll xs

/-- `rtgsToKatakana` from phonetics.ts. -/
def rtgsToKatakana (rtgs : String) : String :=
  joinAll ((rtgsParts rtgs).map (fun p => convertRtgsPart (String.mk p)))

end Phonetics

namespace Phonetics

/-- Every Thai value stored in the mora table is non-empty. -/
theorem mora_values_pos : ∀ p ∈ MORA_TO_THAI, 0 < p.2.length := by decide

/-- A successful mora lookup returns one of the stored (non-empty) values. -/
theorem lookupMora_pos (k v : String) (h : lookupMora k = some v) :
    0 < v.length := by
  unfold lookupMora at h
  obtain ⟨p, hp, hv⟩ := Option.map_eq_some'.mp h
  have hm : p ∈ MORA_TO_THAI := List.mem_of_find?_eq_some hp
  exact hv ▸ mora_values_pos p hm

/-- Away from the names inherited from `Object.prototype`, the TS-typed
view `romajiMoraToThai` agrees with the runtime-faithful model. -/
theorem romajiMoraToThaiJs_agrees (s : String)
    (h : normalizeMora s ∉ OBJECT_PROTOTYPE_MEMBERS) :
    romajiMoraToThaiJs s = JsLookup.str (romajiMoraToThai s) := by
  unfold romajiMoraToThaiJs jsIndexMora romajiMoraToThai
  cases lookupMora (normalizeMora s) with
  | some v => rfl
  | none => simp only [if_neg h]; rfl

end Phonetics

open Phonetics

/-- C1 counterexample: the claim says that on a miss `romajiMoraToThai`
returns the *normalized* input; at input `"X"` the key `"x"` misses the
table, yet the function returns `"X"`, not the normalized `"x"`. -/
theorem C1_counterexample :
    lookupMora (normalizeMora "X") = none ∧
    normalizeMora "X" = "x" ∧
    romajiMoraToThai "X" ≠ normalizeMora "X" := by decide

/-- C1 (amended): for every string whose normalization is neither an own
key of the table nor the name of a member inherited from
`Object.prototype`, the program returns the *original* input string
unchanged. -/
theorem C1_amended_thm (s : String)
    (h1 : lookupMora (normalizeMora s) = none)
    (h2 : normalizeMora s ∉ OBJECT_PROTOTYPE_MEMBERS) :
    romajiMoraToThaiJs s = JsLookup.str s := by
  unfold romajiMoraToThaiJs jsIndexMora
  rw [h1]
  simp only [if_neg h2]
  rfl

/-- C1 witness: the amended claim at the concrete input `"X"`. -/
theorem C1_witness :
    lookupMora (normalizeMora "X") = none ∧
    normalizeMora "X" ∉ OBJECT_PROTOTYPE_MEMBERS ∧
    romajiMoraToThaiJs "X" = JsLookup.str "X" :=
  ⟨by decide, by decide, C1_amended_thm "X" (by decide) (by decide)⟩

/-- C2 counterexample: `"constructor"` misses every own key of the table,
yet the program returns the inherited `Object.prototype.constructor`
member (non-nullish, so `?? roman` does not fire), not the input string. -/
theorem C2_counterexample :
    lookupMora (normalizeMora "constructor") = none ∧
    romajiMoraToThaiJs "constructor" ≠ JsLookup.str "constructor" ∧
    romajiMoraToThaiJs "constructor" = JsLookup.inherited "constructor" := by
  decide

/-- C2 (amended): on a true miss — normalized key neither an own table
key nor an inherited `Object.prototype` member — the original input is
returned unchanged; on an inherited-member key the inherited member is
returned instead of the input. -/
theorem C2_identity_fallback :
    (∀ s : String, lookupMora (normalizeMora s) = none →
      normalizeMora s ∉ OBJECT_PROTOTYPE_MEMBERS →
      romajiMoraToThaiJs s = JsLookup.str s) ∧
    (∀ s : String, lookupMora (normalizeMora s) = none →
      normalizeMora s ∈ OBJECT_PROTOTYPE_MEMBERS →
      romajiMoraToThaiJs s = JsLookup.inherited (normalizeMora s)) := by
  constructor
  · intro s h1 h2
    unfold romajiMoraToThaiJs jsIndexMora
    rw [h1]
    simp only [if_neg h2]
    rfl
  · intro s h1 h2
    unfold romajiMoraToThaiJs jsIndexMora
    rw [h1]
    simp only [if_pos h2]
    rfl

/-- C2 witness: echo at `"xyz"`, inherited member at `"constructor"`. -/
theorem C2_witness :
    romajiMoraToThaiJs "xyz" = JsLookup.str "xyz" ∧
    romajiMoraToThaiJs "constructor" = JsLookup.inherited "constructor" :=
  ⟨C2_identity_fallback.1 "xyz" (by decide) (by decide),
   C2_identity_fallback.2 "constructor" (by decide) (by decide)⟩

/-- C4: every input that normalizes to a key of the table maps to that
key's stored Thai value. -/
theorem C4_table_hit (m v s : String)
    (h1 : lookupMora m = some v) (h2 : normalizeMora s = m) :
    romajiMoraToThai s = v := by
  unfold romajiMoraToThai
  rw [h2, h1]
  rfl

/-- C4 witness: `"KY-O"` normalizes to `"kyo"` and maps to its entry, and
`"shi"` maps to `"ชิ"`. -/
theorem C4_witness :
    romajiMoraToThai "KY-O" = "คโย" ∧ romajiMoraToThai "shi" = "ชิ" :=
  ⟨C4_table_hit "kyo" "คโย" "KY-O" (by decide) (by decide),
   C4_table_hit "shi" "ชิ" "shi" (by decide) (by decide)⟩

/-- C8 counterexample: `"__proto__"` survives normalization, misses every
own key of the table, and the program returns the inherited prototype
object instead of echoing the input — the claimed echo-on-every-miss
fallback fails there. -/
theorem C8_counterexample :
    lookupMora (normalizeMora "__proto__") = none ∧
    romajiMoraToThaiJs "__proto__" ≠ JsLookup.str "__proto__" ∧
    romajiMoraToThaiJs "__proto__" = JsLookup.inherited "__proto__" := by
  decide

/-- C8 (amended): the conversion is total and never yields the empty
string except on the empty input, and on every miss whose normalized key
does not name an inherited `Object.prototype` member it echoes the
input. -/
theorem C8_totality :
    (∀ s : String, (romajiMoraToThaiJs s = JsLookup.str "" ↔ s = "")) ∧
    (∀ s : String, lookupMora (normalizeMora s) = none →
      normalizeMora s ∉ OBJECT_PROTOTYPE_MEMBERS →
      romajiMoraToThaiJs s = JsLookup.str s) := by
  refine ⟨fun s => ⟨fun h => ?_, fun h => by subst h; rfl⟩, fun s h1 h2 => ?_⟩
  · unfold romajiMoraToThaiJs jsIndexMora at h
    cases hl : lookupMora (normalizeMora s) with
    | some v =>
        rw [hl] at h
        simp only [Option.getD_some, JsLookup.str.injEq] at h
        have hv : 0 < v.length := lookupMora_pos _ _ hl
        rw [h] at hv
        exact absurd hv (by decide)
    | none =>
        rw [hl] at h
        by_cases hm : normalizeMora s ∈ OBJECT_PROTOTYPE_MEMBERS
        · rw [if_pos hm] at h
          simp at h
        · rw [if_neg hm] at h
          simpa using h
  · unfold romajiMoraToThaiJs jsIndexMora
    rw [h1]
    simp only [if_neg h2]
    rfl

/-- C8 witness: the miss-fallback conjunct at the concrete input `"zzz"`. -/
theorem C8_witness : romajiMoraToThaiJs "zzz" = JsLookup.str "zzz" :=
  C8_totality.2 "zzz" (by decide) (by decide)

/-- C9: both conversion functions are deterministic — in this pure
functional embedding two applications to the same input are definitionally
the same string, with no state to drift. -/
theorem C9_deterministic :
    ∀ s : String,
      romajiMoraToThai s = romajiMoraToThai s ∧
      rtgsToKatakana s = rtgsToKatakana s :=
  fun _ => ⟨rfl, rfl⟩

/-- C3 counterexample: `VOWEL_MAP` is *not* ordered longest-pattern-first:
entry 3 is the 2-character pattern `"ia"`, yet entry 5 is the 3-character
pattern `"aaw"`. -/
theorem C3_counterexample :
    VOWEL_MAP.getD 3 ("", 0, "") = ("ia", 1, "ア") ∧
    VOWEL_MAP.getD 5 ("", 0, "") = ("aaw", 4, "ー") ∧
    (VOWEL_MAP.getD 3 ("", 0, "")).1.length <
      (VOWEL_MAP.getD 5 ("", 0, "")).1.length ∧
    ¬ List.Pairwise
        (fun p q : String × Fin 5 × String => q.1.length ≤ p.1.length)
        VOWEL_MAP := by decide

/-- C3 (amended): no pattern that appears earlier in `VOWEL_MAP` is a
prefix of a pattern that appears later, so greedy first-match scanning
still selects the most specific matching pattern. -/
theorem C3_amended_thm :
    List.Pairwise
      (fun p q : String × Fin 5 × String => isPre p.1.data q.1.data = false)
      VOWEL_MAP := by decide

namespace Phonetics

/-- The onset loop returns the first list entry that is a prefix of the
input (dropping it from the front), and the empty onset when none is. -/
theorem findOnsetLoop_spec (L : List String) (s : List Char) :
    findOnsetLoop L s =
      match L.find? (fun o => isPre o.data s) with
      | some o => (o, s.drop o.data.length)
      | none => ("", s) := by
  induction L with
  | nil => rfl
  | cons o os ih =>
      cases h : isPre o.data s with
      | true => simp [findOnsetLoop, h, List.find?_cons_of_pos]
      | false => simp [findOnsetLoop, h, List.find?_cons_of_neg, ih]

/-- A non-empty coda returned by the coda loop is strictly shorter than the
string it was removed from, and the remaining nucleus is non-empty. -/
theorem findCodaLoop_guard (L : List String) (rest : List Char)
    (c : String) (rest2 : List Char)
    (h : findCodaLoop L rest = (c, rest2)) (hc : c ≠ "") :
    c.data.length < rest.length ∧
    rest2.length = rest.length - c.data.length ∧ rest2 ≠ [] := by
  induction L with
  | nil =>
      exact absurd (congrArg Prod.fst h).symm (by simpa using hc)
  | cons k ks ih =>
      by_cases hk : (isSuf k.data rest && decide (k.data.length < rest.length)) = true
      · rw [findCodaLoop, if_pos hk] at h
        have h1 : k = c := congrArg Prod.fst h
        have h2 : rest.take (rest.length - k.data.length) = rest2 :=
          congrArg Prod.snd h
        subst h1
        rw [Bool.and_eq_true] at hk
        have hlt : k.data.length < rest.length := of_decide_eq_true hk.2
        have hlen : rest2.length = rest.length - k.data.length := by
          rw [← h2, List.length_take]
          omega
        refine ⟨hlt, hlen, fun hnil => ?_⟩
        rw [hnil] at hlen
        simp only [List.length_nil] at hlen
        omega
      · rw [findCodaLoop, if_neg hk] at h
        exact ih h

end Phonetics

/-- C5: the onset consumed by `convertRtgsPart` is the first entry of
`ONSET_LIST` (in its fixed order) that is a prefix of the syllable, with the
empty onset as fallback; consequently `"khaa"` and `"kham"` consume onset
`"kh"` (not `"k"`) and map through the `"kh"` Katakana row. -/
theorem C5_onset_first_match :
    (∀ s : List Char,
      findOnsetLoop ONSET_LIST s =
        match ONSET_LIST.find? (fun o => isPre o.data s) with
        | some o => (o, s.drop o.data.length)
        | none => ("", s)) ∧
    findOnsetLoop ONSET_LIST ('k' :: 'h' :: ['a', 'a']) = ("kh", ['a', 'a']) ∧
    findOnsetLoop ONSET_LIST ('k' :: 'h' :: ['a', 'm']) = ("kh", ['a', 'm']) ∧
    onsetKataLookup "kh" = ⟨"カ", "キ", "ク", "ケ", "コ"⟩ ∧
    convertRtgsPart "khaa" = "カー" ∧
    convertRtgsPart "kham" = "カム" :=
  ⟨fun s => findOnsetLoop_spec ONSET_LIST s,
   by decide, by decide, by decide, by decide, by decide⟩

/-- C6: a coda is consumed only when strictly shorter than the string left
after onset removal, so the vowel nucleus is never emptied by the coda; the
input `"ng"` alone is instead consumed as an onset and rendered with the
default `a` vowel. -/
theorem C6_coda_guard :
    (∀ (rest : List Char) (c : String) (rest2 : List Char),
      findCodaLoop CODA_KEYS rest = (c, rest2) → c ≠ "" →
      c.data.length < rest.length ∧
      rest2.length = rest.length - c.data.length ∧ rest2 ≠ []) ∧
    findOnsetLoop ONSET_LIST ['n', 'g'] = ("ng", []) ∧
    convertRtgsPart "ng" = "ンガ" :=
  ⟨fun rest c rest2 h hc => findCodaLoop_guard CODA_KEYS rest c rest2 h hc,
   by decide, by decide⟩

/-- C6 witness: on `"ang"` (after the empty onset) the coda loop consumes
`"ng"` and leaves the non-empty nucleus `['a']`. -/
theorem C6_witness :
    ("ng" : String).data.length < (['a', 'n', 'g'] : List Char).length ∧
    (['a'] : List Char).length =
      (['a', 'n', 'g'] : List Char).length - ("ng" : String).data.length ∧
    (['a'] : List Char) ≠ [] :=
  C6_coda_guard.1 ['a', 'n', 'g'] "ng" ['a'] (by decide) (by decide)

namespace Phonetics

/-- Splitting a hyphen-free list yields a single segment. -/
theorem splitHyphens_no_hyphen (l : List Char) :
    ∀ acc : List Char, '-' ∉ l → splitHyphens l acc = [acc.reverse ++ l] := by
  induction l with
  | nil => intro acc _; simp [splitHyphens]
  | cons c cs ih =>
      intro acc h
      have hc : c ≠ '-' := fun hc => h (hc ▸ List.mem_cons_self c cs)
      have hcs : '-' ∉ cs := fun hm => h (List.mem_cons_of_mem c hm)
      rw [splitHyphens, if_neg hc, ih (c :: acc) hcs]
      simp

/-- Splitting around the first hyphen peels off one segment. -/
theorem splitHyphens_mid (l : List Char) :
    ∀ (m acc : List Char), '-' ∉ l →
      splitHyphens (l ++ '-' :: m) acc =
        (acc.reverse ++ l) :: splitHyphens m [] := by
  induction l with
  | nil =>
      intro m acc _
      simp [splitHyphens]
  | cons c cs ih =>
      intro m acc h
      have hc : c ≠ '-' := fun hc => h (hc ▸ List.mem_cons_self c cs)
      have hcs : '-' ∉ cs := fun hm => h (List.mem_cons_of_mem c hm)
      rw [List.cons_append, splitHyphens, if_neg hc, ih m (c :: acc) hcs]
      simp

/-- Concatenation distributes over list append. -/
theorem joinAll_append (l m : List String) :
    joinAll (l ++ m) = joinAll l ++ joinAll m := by
  induction l with
  | nil => rw [List.nil_append, joinAll, String.empty_append]
  | cons x xs ih =>
      rw [List.cons_append, joinAll, joinAll, ih, String.append_assoc]

end Phonetics

/-- C7: `rtgsToKatakana` is empty on the empty string, and on a hyphen
joining two hyphen-free words it is the concatenation of the two
conversions (segments are converted independently; empty segments are
discarded). -/
theorem C7_split_concat :
    rtgsToKatakana "" = "" ∧
    ∀ a b : String, '-' ∉ a.data → '-' ∉ b.data →
      rtgsToKatakana (a ++ "-" ++ b) = rtgsToKatakana a ++ rtgsToKatakana b := by
  refine ⟨rfl, fun a b ha hb => ?_⟩
  unfold rtgsToKatakana rtgsParts
  have hdata : (a ++ "-" ++ b).data = a.data ++ '-' :: b.data := by
    rw [String.data_append, String.data_append, List.append_assoc]
    rfl
  rw [hdata, splitHyphens_mid a.data b.data [] ha,
      splitHyphens_no_hyphen a.data [] ha, splitHyphens_no_hyphen b.data [] hb]
  simp only [List.reverse_nil, List.nil_append]
  have htwo : ([a.data, b.data] : List (List Char)) = [a.data] ++ [b.data] := rfl
  rw [htwo, List.filter_append, List.map_append, joinAll_append]

/-- C7 witness: the hyphen-splitting law at `"ka-na"`. -/
theorem C7_witness :
    rtgsToKatakana "ka-na" = rtgsToKatakana "ka" ++ rtgsToKatakana "na" :=
  C7_split_concat.2 "ka" "na" (by decide) (by decide)

namespace Phonetics

/-- Every Katakana base stored in `ONSET_KATA` is non-empty. -/
theorem onsetRows_pos :
    ∀ p ∈ ONSET_KATA,
      ∀ x ∈ [p.2.va, p.2.vi, p.2.vu, p.2.ve, p.2.vo], 0 < x.length := by
  decide

/-- Whatever onset was found (or the fallback row), every selected base is
non-empty. -/
theorem onsetKataLookup_sel_pos (o : String) (i : Fin 5) :
    0 < ((onsetKataLookup o).sel i).length := by
  have hsel : ∀ r : KataRow, r.sel i ∈ [r.va, r.vi, r.vu, r.ve, r.vo] :=
    fun r => List.get_mem _ _ _
  unfold onsetKataLookup
  cases h : ONSET_KATA.find? (fun p => p.1 == o) with
  | some p =>
      exact onsetRows_pos p (List.mem_of_find?_eq_some h) _ (hsel p.2)
  | none =>
      clear hsel
      revert i
      decide

/-- Every single-syllable conversion is a non-empty string (it always
starts with a Katakana base). -/
theorem convertRtgsPart_pos (raw : String) :
    0 < (convertRtgsPart raw).length := by
  unfold convertRtgsPart
  cases hv : findVowelLoop VOWEL_MAP
      (findCodaLoop CODA_KEYS
        (findOnsetLoop ONSET_LIST ((stripDiacritics raw.data).map jsToLower)).2).2 with
  | none =>
      simp only [hv, String.length_append]
      have := onsetKataLookup_sel_pos
        (findOnsetLoop ONSET_LIST ((stripDiacritics raw.data).map jsToLower)).1 0
      omega
  | some v =>
      obtain ⟨vi, suf⟩ := v
      simp only [hv, String.length_append]
      have := onsetKataLookup_sel_pos
        (findOnsetLoop ONSET_LIST ((stripDiacritics raw.data).map jsToLower)).1 vi
      omega

/-- The non-empty segments of a split are exhausted exactly when the
accumulator is empty and every character is a hyphen. -/
theorem filter_splitHyphens_nil (l : List Char) :
    ∀ acc : List Char,
      ((splitHyphens l acc).filter (fun p => !p.isEmpty) = [] ↔
        (acc = [] ∧ ∀ c ∈ l, c = '-')) := by
  induction l with
  | nil =>
      intro acc
      rw [splitHyphens]
      rcases acc with _ | ⟨a, as⟩
      · simp
      · have hne : ((a :: as).reverse).isEmpty = false := by simp
        simp [List.filter_cons, hne]
  | cons c cs ih =>
      intro acc
      by_cases hc : c = '-'
      · subst hc
        rw [splitHyphens, if_pos rfl]
        rcases acc with _ | ⟨a, as⟩
        · simp [List.filter_cons, ih []]
        · have hne : ((a :: as).reverse).isEmpty = false := by simp
          simp [List.filter_cons, hne]
      · rw [splitHyphens, if_neg hc, ih (c :: acc)]
        simp [hc]

/-- The segment list of a word is empty exactly when the word is all
hyphens (vacuously, when it is empty). -/
theorem rtgsParts_nil_iff (s : String) :
    rtgsParts s = [] ↔ ∀ c ∈ s.data, c = '-' := by
  unfold rtgsParts
  rw [filter_splitHyphens_nil s.data []]
  simp

/-- Concatenating non-empty strings yields the empty string only for the
empty list. -/
theorem joinAll_eq_empty (L : List String) (h : ∀ x ∈ L, 0 < x.length) :
    joinAll L = "" ↔ L = [] := by
  cases L with
  | nil => simp [joinAll]
  | cons x xs =>
      simp only [joinAll]
      constructor
      · intro he
        have hx := h x (List.mem_cons_self x xs)
        have hlen : 0 < (x ++ joinAll xs).length := by
          rw [String.length_append]
          omega
        rw [he] at hlen
        exact absurd hlen (by decide)
      · intro he
        exact absurd he (by simp)

end Phonetics

/-- C10: every single-syllable conversion is non-empty, and the whole
conversion returns the empty string exactly when the input consists only
of hyphens (or is empty). -/
theorem C10_output_nonempty :
    (∀ raw : String, 0 < (convertRtgsPart raw).length) ∧
    (∀ s : String, (rtgsToKatakana s = "" ↔ ∀ c ∈ s.data, c = '-')) := by
  refine ⟨convertRtgsPart_pos, fun s => ?_⟩
  unfold rtgsToKatakana
  rw [joinAll_eq_empty _ ?_, List.map_eq_nil_iff, rtgsParts_nil_iff]
  intro x hx
  obtain ⟨p, _, hp⟩ := List.mem_map.mp hx
  exact hp ▸ convertRtgsPart_pos (String.mk p)
